import Mathlib

/-!
# BlitzHash benchmark visualization — verification of `src/viz/plot_results.py`

Shallow embedding of the data-aggregation logic of the visualization script:
`load_results`, `plot_throughput_comparison`, `plot_threading_scaling` and
`plot_history`.  Rendering calls (figure creation, bar/line drawing, labels)
have no influence on the derived data and are not modelled; what is modelled
is every computation on the dataframe and the control flow deciding whether
an image file is written (`rendered`) or the function returns early
(`skipped`), or an exception escapes (`error`).

Numbers: the `timestamp` and `mb_s` columns are modelled as rationals.
All claims settled here are about selection, grouping and exact division
(pandas float division of equal finite values is exact, as is multiplication
by small integers in the concrete examples), so ℚ is a faithful carrier;
where the source's float division by zero matters, the IEEE-style outcomes
(`inf`, `-inf`, `nan`) are modelled explicitly by `PFloat`.
-/

/-- One row of `bench_results.csv` (schema: timestamp, algorithm, threads, mb_s). -/
structure BenchmarkRecord where
  timestamp : ℚ
  algorithm : String
  threads : ℕ
  mb_s : ℚ
deriving DecidableEq

/-- Result of a pandas float division: a finite value, `inf`, `-inf`, or `NaN`. -/
inductive PFloat where
  | finite (q : ℚ)
  | inf
  | negInf
  | nan
deriving DecidableEq

/-- True iff the value is a finite float. -/
def PFloat.isFinite : PFloat → Bool
  | .finite _ => true
  | _ => false

/-- Pandas/NumPy elementwise division `a / b` on floats: division by zero
yields `NaN` for `0/0`, `±inf` otherwise; no exception is raised. -/
def pdiv (a b : ℚ) : PFloat :=
  if b = 0 then
    if a = 0 then .nan else if 0 < a then .inf else .negInf
  else .finite (a / b)

/-- Maximum of the timestamp column, `df['timestamp'].max()`; `none` on an
empty frame (pandas returns `NaN` there, which compares unequal to every
value). -/
def maxTs : List BenchmarkRecord → Option ℚ
  | [] => none
  | r :: d =>
    match maxTs d with
    | none => some r.timestamp
    | some m => some (max r.timestamp m)

/-- The latest run, `df[df['timestamp'] == df['timestamp'].max()]`.  On an
empty frame the `NaN` max matches no row, giving the empty selection. -/
def latestRun (d : List BenchmarkRecord) : List BenchmarkRecord :=
  match maxTs d with
  | none => []
  | some m => d.filter (fun r => r.timestamp = m)

/-- Arithmetic mean of a list of rationals (pandas `mean()`; only ever
applied to non-empty groups). -/
def listMean (l : List ℚ) : ℚ := l.sum / l.length

/-- The distinct values of a list in order of first appearance
(pandas `unique()`). -/
def uniqueFirst {α : Type} [DecidableEq α] (l : List α) : List α :=
  l.foldl (fun acc a => if a ∈ acc then acc else acc ++ [a]) []

/-- Grouping with mean reduction, `df.groupby(k)['mb_s'].mean()`: one
`(key, mean mb_s)` entry per distinct key, keys in ascending order (pandas
`groupby` sorts group keys). -/
def groupMeans {K : Type} [LinearOrder K] (k : BenchmarkRecord → K)
    (l : List BenchmarkRecord) : List (K × ℚ) :=
  (List.insertionSort (· ≤ ·) (uniqueFirst (l.map k))).map
    (fun key => (key, listMean ((l.filter (fun r => k r = key)).map BenchmarkRecord.mb_s)))

/-- The summary series `latest.groupby('algorithm')['mb_s'].mean().sort_values()`:
the latest run's per-algorithm means, sorted by mean ascending (the embedding
fixes the stable order; pandas leaves tie order unspecified). -/
def runSummary (d : List BenchmarkRecord) : List (String × ℚ) :=
  List.insertionSort (fun p q => p.2 ≤ q.2) (groupMeans (fun r => r.algorithm) (latestRun d))

/-- Outcome of `plot_throughput_comparison`: either an uncaught exception
(`error`), or the summary series together with the speedup series
(`ok`), in which case the chart is rendered. -/
inductive SummaryOutcome where
  | error (msg : String)
  | ok (summary : List (String × ℚ)) (speedup : List (String × PFloat))
deriving DecidableEq

/-- Embeds `plot_throughput_comparison(df)`: select the latest run, compute the
per-algorithm mean throughput sorted ascending, take
`baseline = summary.iloc[0]` (raises `IndexError` on an empty summary),
and divide the whole series by the baseline. -/
def plotThroughputComparison (d : List BenchmarkRecord) : SummaryOutcome :=
  match runSummary d with
  | [] => .error "IndexError: single positional indexer is out-of-bounds"
  | (a0, b) :: rest =>
    .ok ((a0, b) :: rest) (((a0, b) :: rest).map (fun p => (p.1, pdiv p.2 b)))

/-- Embeds `load_results`: `none` models a missing csv file (the script prints a
diagnostic and exits with status 1); `some rows` models a readable file whose
data rows are `rows` — loading then succeeds whatever their number. -/
def load_results : Option (List BenchmarkRecord) → Except String (List BenchmarkRecord)
  | none => .error "bench_results.csv not found (exit 1)"
  | some rows => .ok rows

/-- Outcome of `plot_threading_scaling`: `skipped` models an early `return`
before any drawing (no image written); `rendered` carries the measured
curve `by_threads` and, when the `len(by_threads) > 0` guard is taken, the
ideal-scaling curve (`none` models the guard's untaken else-branch: no
ideal line drawn), after which the image is written. -/
inductive ScalingOutcome where
  | skipped (reason : String)
  | rendered (curve : List (ℕ × ℚ)) (ideal : Option (List (ℕ × ℚ)))
deriving DecidableEq

/-- The `if len(by_threads) > 0:` block: take
`single_thread_speed = by_threads.iloc[0]` (guarded positional access) and
build `ideal = [single_thread_speed * t for t in by_threads.index]`. -/
def idealOf (bt : List (ℕ × ℚ)) : Option (List (ℕ × ℚ)) :=
  if h : 0 < bt.length then
    let p0 := bt.get ⟨0, h⟩
    some (bt.map (fun p => (p.1, p0.2 * (p.1 : ℚ))))
  else none

/-- Embeds `plot_threading_scaling(df)`: filter rows with
`algorithm == 'BlitzHash-MT'`; return early if none; group by `threads`
taking mean `mb_s` (ascending thread count); return early if fewer than two
thread counts; otherwise draw the measured curve and — under the
`len(by_threads) > 0` guard — the ideal curve, then save the image. -/
def plotThreadingScaling (d : List BenchmarkRecord) : ScalingOutcome :=
  let parallel := d.filter (fun r => r.algorithm = "BlitzHash-MT")
  if parallel = [] then .skipped "No parallel benchmark data found, skipping threading chart"
  else
    let by_threads := groupMeans (fun r => r.threads) parallel
    if by_threads.length < 2 then .skipped "Need multiple thread counts for scaling chart"
    else .rendered by_threads (idealOf by_threads)

/-- Outcome of `plot_history`: `skipped` models the early `return` before
any drawing (no image written); `rendered` carries, for each algorithm in
first-appearance order, its time-ordered `(timestamp, mb_s)` point list,
after which the image is written. -/
inductive HistoryOutcome where
  | skipped (reason : String)
  | rendered (series : List (String × List (ℚ × ℚ)))
deriving DecidableEq

/-- Embeds `plot_history(df)`: return early when `df['timestamp'].nunique() < 2`;
otherwise, for each algorithm of `df['algorithm'].unique()`, plot the rows
of that algorithm sorted by timestamp (stable), one point per row — no
aggregation of duplicate algorithm/timestamp pairs. -/
def plotHistory (d : List BenchmarkRecord) : HistoryOutcome :=
  if (uniqueFirst (d.map (fun r => r.timestamp))).length < 2 then
    .skipped "Need multiple benchmark runs for history chart"
  else
    .rendered ((uniqueFirst (d.map (fun r => r.algorithm))).map
      (fun a =>
        (a, (List.insertionSort (fun r s : BenchmarkRecord => r.timestamp ≤ s.timestamp)
              (d.filter (fun r => r.algorithm = a))).map
            (fun r => (r.timestamp, r.mb_s)))))

/-- Maximum of two optional rationals, absorbing `none` (helper describing
how `maxTs` combines across list concatenation). -/
def omax : Option ℚ → Option ℚ → Option ℚ
  | none, b => b
  | some a, none => some a
  | some a, some b => some (max a b)

instance : IsTotal (String × ℚ) (fun p q => p.2 ≤ q.2) :=
  ⟨fun a b => le_total a.2 b.2⟩

instance : IsTrans (String × ℚ) (fun p q => p.2 ≤ q.2) :=
  ⟨fun _ _ _ hab hbc => le_trans hab hbc⟩

instance : IsTotal BenchmarkRecord (fun r s => r.timestamp ≤ s.timestamp) :=
  ⟨fun a b => le_total a.timestamp b.timestamp⟩

instance : IsTrans BenchmarkRecord (fun r s => r.timestamp ≤ s.timestamp) :=
  ⟨fun _ _ _ hab hbc => le_trans hab hbc⟩

lemma omax_assoc (a b c : Option ℚ) : omax (omax a b) c = omax a (omax b c) := by
  cases a <;> cases b <;> cases c <;> simp [omax, max_assoc]

lemma maxTs_cons (r : BenchmarkRecord) (d : List BenchmarkRecord) :
    maxTs (r :: d) = omax (some r.timestamp) (maxTs d) := by
  cases h : maxTs d <;> simp [maxTs, omax, h]

lemma maxTs_append (l₁ l₂ : List BenchmarkRecord) :
    maxTs (l₁ ++ l₂) = omax (maxTs l₁) (maxTs l₂) := by
  induction l₁ with
  | nil => rfl
  | cons r l ih => rw [List.cons_append, maxTs_cons, ih, maxTs_cons, omax_assoc]

lemma maxTs_insert_of_ne (d₁ d₂ : List BenchmarkRecord) (r : BenchmarkRecord)
    (h : maxTs (d₁ ++ r :: d₂) ≠ some r.timestamp) :
    maxTs (d₁ ++ r :: d₂) = maxTs (d₁ ++ d₂) := by
  rw [maxTs_append, maxTs_cons] at h ⊢
  rw [maxTs_append]
  rcases ha : maxTs d₁ with _ | a <;> rcases hb : maxTs d₂ with _ | b <;> rw [ha, hb] at h
  · simp [omax] at h
  · simp only [omax] at h ⊢
    rcases le_total r.timestamp b with hle | hge
    · rw [max_eq_right hle]
    · exact absurd (by rw [max_eq_left hge]) h
  · simp only [omax] at h ⊢
    rcases le_total r.timestamp a with hle | hge
    · rw [max_eq_left hle]
    · exact absurd (by rw [max_eq_right hge]) h
  · simp only [omax] at h ⊢
    rw [max_left_comm] at h ⊢
    rcases le_total r.timestamp (max a b) with hle | hge
    · rw [max_eq_right hle]
    · exact absurd (by rw [max_eq_left hge]) h

lemma latestRun_insert_of_ne (d₁ d₂ : List BenchmarkRecord) (r : BenchmarkRecord)
    (h : maxTs (d₁ ++ r :: d₂) ≠ some r.timestamp) :
    latestRun (d₁ ++ r :: d₂) = latestRun (d₁ ++ d₂) := by
  have hm := maxTs_insert_of_ne d₁ d₂ r h
  rw [latestRun, latestRun, hm]
  cases hM : maxTs (d₁ ++ d₂) with
  | none => rfl
  | some M =>
    have hr : ¬ (r.timestamp = M) := by
      rw [hm, hM] at h
      intro e
      exact h (by rw [e])
    simp [List.filter_append, List.filter_cons, hr]

lemma maxTs_mem (d : List BenchmarkRecord) (m : ℚ) (h : maxTs d = some m) :
    ∃ r ∈ d, r.timestamp = m := by
  induction d generalizing m with
  | nil => simp [maxTs] at h
  | cons r tl ih =>
    rw [maxTs] at h
    cases htl : maxTs tl with
    | none =>
      rw [htl] at h
      simp only [Option.some.injEq] at h
      exact ⟨r, List.mem_cons_self r tl, h⟩
    | some m' =>
      rw [htl] at h
      simp only [Option.some.injEq] at h
      rcases le_total r.timestamp m' with hle | hge
      · obtain ⟨s, hs, hts⟩ := ih m' htl
        exact ⟨s, List.mem_cons_of_mem r hs, by rw [hts, ← h, max_eq_right hle]⟩
      · exact ⟨r, List.mem_cons_self r tl, by rw [← h, max_eq_left hge]⟩

lemma maxTs_of_all_eq (d : List BenchmarkRecord) (m : ℚ) (hne : d ≠ [])
    (hall : ∀ r ∈ d, r.timestamp = m) : maxTs d = some m := by
  induction d with
  | nil => exact absurd rfl hne
  | cons r tl ih =>
    rw [maxTs_cons]
    cases htl : maxTs tl with
    | none => simp [omax, hall r (List.mem_cons_self r tl)]
    | some m' =>
      have htlne : tl ≠ [] := by
        intro e
        rw [e] at htl
        simp [maxTs] at htl
      have h2 := ih htlne (fun s hs => hall s (List.mem_cons_of_mem r hs))
      rw [htl] at h2
      simp only [Option.some.injEq] at h2
      simp [omax, h2, hall r (List.mem_cons_self r tl)]

lemma latestRun_eq_self (l : List BenchmarkRecord) (m : ℚ) (hm : maxTs l = some m)
    (hall : ∀ s ∈ l, s.timestamp = m) : latestRun l = l := by
  rw [latestRun, hm]
  exact List.filter_eq_self.mpr (fun s hs => by simp [hall s hs])

lemma latestRun_idem (d : List BenchmarkRecord) :
    latestRun (latestRun d) = latestRun d := by
  cases hM : maxTs d with
  | none =>
    have h0 : latestRun d = [] := by rw [latestRun, hM]
    rw [h0]
    rfl
  | some M =>
    have hL : latestRun d = d.filter (fun r => decide (r.timestamp = M)) := by
      rw [latestRun, hM]
    have hall : ∀ s ∈ latestRun d, s.timestamp = M := by
      rw [hL]
      intro s hs
      simpa using (List.mem_filter.mp hs).2
    obtain ⟨r, hrmem, hrts⟩ := maxTs_mem d M hM
    have hne : latestRun d ≠ [] := by
      rw [hL]
      intro e
      have hrf : r ∈ d.filter (fun r => decide (r.timestamp = M)) :=
        List.mem_filter.mpr ⟨hrmem, by simp [hrts]⟩
      rw [e] at hrf
      exact absurd hrf (List.not_mem_nil r)
    exact latestRun_eq_self (latestRun d) M
      (maxTs_of_all_eq (latestRun d) M hne hall) hall

lemma plotTC_latestRun (d : List BenchmarkRecord) :
    plotThroughputComparison (latestRun d) = plotThroughputComparison d := by
  rw [plotThroughputComparison, plotThroughputComparison, runSummary, runSummary,
    latestRun_idem]

lemma plotTC_ok_parts (d : List BenchmarkRecord) (s : List (String × ℚ))
    (sp : List (String × PFloat)) (h : plotThroughputComparison d = .ok s sp) :
    runSummary d = s ∧ ∃ a0 b rest, s = (a0, b) :: rest ∧
      sp = s.map (fun p => (p.1, pdiv p.2 b)) := by
  rw [plotThroughputComparison] at h
  cases hrs : runSummary d with
  | nil =>
    rw [hrs] at h
    exact absurd h (by simp)
  | cons p rest =>
    obtain ⟨a0, b⟩ := p
    rw [hrs] at h
    simp only [SummaryOutcome.ok.injEq] at h
    obtain ⟨hs, hsp⟩ := h
    refine ⟨hs, a0, b, rest, hs.symm, ?_⟩
    rw [← hs, ← hsp]

/-- C1 (amended): for every dataset whose latest run contains at least one
algorithm and whose rank-0 (minimal) mean throughput is nonzero, the rank-0
entry of the sorted summary is one of the latest run's per-algorithm means,
its mean is minimal among all of them (a positional choice independent of
the algorithm's name), and the speedup computed for it is exactly 1.  (The
nonzero-baseline hypothesis is forced by the counterexample
`baseline_zero_gives_nan_speedup`: at baseline mean 0 the code computes
`0/0 = NaN`, not `1.0`.) -/
theorem baseline_is_min_and_unit_speedup (d : List BenchmarkRecord)
    (s : List (String × ℚ)) (sp : List (String × PFloat)) (a0 : String) (b : ℚ)
    (h : plotThroughputComparison d = .ok s sp)
    (hhead : s.head? = some (a0, b)) (hb : b ≠ 0) :
    (a0, b) ∈ groupMeans (fun r => r.algorithm) (latestRun d) ∧
    (∀ p ∈ groupMeans (fun r => r.algorithm) (latestRun d), b ≤ p.2) ∧
    sp.head? = some (a0, PFloat.finite 1) := by
  obtain ⟨hrs, a1, b1, rest, hs, hsp⟩ := plotTC_ok_parts d s sp h
  rw [hs] at hhead
  simp only [List.head?_cons, Option.some.injEq, Prod.mk.injEq] at hhead
  obtain ⟨ha1, hb1⟩ := hhead
  subst ha1
  subst hb1
  have hperm : (runSummary d).Perm
      (groupMeans (fun r => r.algorithm) (latestRun d)) := by
    rw [runSummary]
    exact List.perm_insertionSort _ _
  have hsorted : List.Sorted (fun p q : String × ℚ => p.2 ≤ q.2) (runSummary d) := by
    rw [runSummary]
    exact List.sorted_insertionSort _ _
  rw [hrs, hs] at hsorted hperm
  have hrest := (List.sorted_cons.mp hsorted).1
  refine ⟨hperm.mem_iff.mp (List.mem_cons_self _ _), ?_, ?_⟩
  · intro p hp
    rcases List.mem_cons.mp (hperm.mem_iff.mpr hp) with he | hm
    · rw [he]
    · exact hrest p hm
  · rw [hsp, hs]
    simp only [List.map_cons, List.head?_cons, Option.some.injEq, Prod.mk.injEq]
    exact ⟨trivial, by rw [pdiv, if_neg hb, div_self hb]⟩

/-- C1 witness: the spec's own scenario — rows
`(t=100, SHA-256, 1, 50), (t=100, BlitzHash, 1, 200), (t=100, BlitzHash-MT, 4, 600)`
give baseline SHA-256 at 50 MB/s with speedup exactly 1, and 50 is minimal. -/
theorem baseline_is_min_and_unit_speedup_witness :
    ("SHA-256", (50:ℚ)) ∈ groupMeans (fun r => r.algorithm)
      (latestRun [⟨100, "SHA-256", 1, 50⟩, ⟨100, "BlitzHash", 1, 200⟩,
        ⟨100, "BlitzHash-MT", 4, 600⟩]) ∧
    (∀ p ∈ groupMeans (fun r => r.algorithm)
      (latestRun [⟨100, "SHA-256", 1, 50⟩, ⟨100, "BlitzHash", 1, 200⟩,
        ⟨100, "BlitzHash-MT", 4, 600⟩]), (50:ℚ) ≤ p.2) ∧
    ([("SHA-256", PFloat.finite 1), ("BlitzHash", PFloat.finite 4),
      ("BlitzHash-MT", PFloat.finite 12)] : List (String × PFloat)).head? =
      some ("SHA-256", PFloat.finite 1) :=
  baseline_is_min_and_unit_speedup
    [⟨100, "SHA-256", 1, 50⟩, ⟨100, "BlitzHash", 1, 200⟩, ⟨100, "BlitzHash-MT", 4, 600⟩]
    [("SHA-256", 50), ("BlitzHash", 200), ("BlitzHash-MT", 600)]
    [("SHA-256", PFloat.finite 1), ("BlitzHash", PFloat.finite 4),
      ("BlitzHash-MT", PFloat.finite 12)]
    "SHA-256" 50
    (by
      simp [plotThroughputComparison, runSummary, groupMeans, latestRun, maxTs,
        uniqueFirst, listMean, pdiv]
      norm_num)
    rfl
    (by norm_num)

/-- C1 counterexample: on the dataset with the single row
`(t=0, A, 1, mb_s=0)` the baseline mean is 0 and the code computes the
baseline's own speedup as `0/0 = NaN`, not exactly `1.0` — so the claim as
stated (speedup of the baseline is exactly 1.0 for *every* dataset with a
non-empty latest run) is false. -/
theorem baseline_zero_gives_nan_speedup :
    plotThroughputComparison [⟨0, "A", 1, 0⟩] =
      .ok [("A", 0)] [("A", PFloat.nan)] ∧
    PFloat.nan ≠ PFloat.finite 1 :=
  ⟨by
    simp [plotThroughputComparison, runSummary, groupMeans, latestRun, maxTs,
      uniqueFirst, listMean, pdiv],
   fun hc => nomatch hc⟩

/-- C2 (amended): when the baseline mean throughput (the rank-0 entry of the
sorted summary) is exactly 0, `plot_throughput_comparison` does NOT signal a
`DivisionByZero` error — it returns normally, and every speedup value it
produces is non-finite (`NaN` for a zero mean, `±inf` otherwise). -/
theorem zero_baseline_returns_nonfinite_speedups (d : List BenchmarkRecord)
    (s : List (String × ℚ)) (sp : List (String × PFloat)) (a0 : String)
    (h : plotThroughputComparison d = .ok s sp)
    (hhead : s.head? = some (a0, (0:ℚ))) :
    ∀ p ∈ sp, p.2.isFinite = false := by
  obtain ⟨hrs, a1, b1, rest, hs, hsp⟩ := plotTC_ok_parts d s sp h
  rw [hs] at hhead
  simp only [List.head?_cons, Option.some.injEq, Prod.mk.injEq] at hhead
  obtain ⟨ha1, hb1⟩ := hhead
  subst hb1
  intro p hp
  rw [hsp] at hp
  obtain ⟨q, hq, hqp⟩ := List.mem_map.mp hp
  rw [← hqp]
  simp only [pdiv, if_pos rfl]
  split_ifs <;> rfl

/-- C2 witness: a dataset whose baseline mean is 0 on which the theorem's
hypotheses hold concretely. -/
theorem zero_baseline_returns_nonfinite_speedups_witness :
    plotThroughputComparison [⟨0, "A", 1, 0⟩, ⟨0, "C", 1, 7⟩] =
      .ok [("A", 0), ("C", 7)] [("A", PFloat.nan), ("C", PFloat.inf)] ∧
    ([("A", (0:ℚ)), ("C", 7)] : List (String × ℚ)).head? = some ("A", (0:ℚ)) ∧
    ∀ p ∈ ([("A", PFloat.nan), ("C", PFloat.inf)] : List (String × PFloat)),
      p.2.isFinite = false := by
  have hsim : plotThroughputComparison [⟨0, "A", 1, 0⟩, ⟨0, "C", 1, 7⟩] =
      .ok [("A", 0), ("C", 7)] [("A", PFloat.nan), ("C", PFloat.inf)] := by
    simp [plotThroughputComparison, runSummary, groupMeans, latestRun, maxTs,
      uniqueFirst, listMean, pdiv]
  exact ⟨hsim, rfl,
    zero_baseline_returns_nonfinite_speedups _ _ _ "A" hsim rfl⟩

/-- C2 counterexample: on the dataset `[(0, A, 1, 0), (0, B, 1, 100)]` the
baseline mean is exactly 0, yet the summarization returns an `ok` result
(no `DivisionByZero` is signalled) whose speedup values are the non-finite
floats `NaN` and `inf` — the very infinities the claim says are avoided. -/
theorem zero_baseline_not_signalled :
    plotThroughputComparison [⟨0, "A", 1, 0⟩, ⟨0, "B", 1, 100⟩] =
      .ok [("A", 0), ("B", 100)] [("A", PFloat.nan), ("B", PFloat.inf)] ∧
    PFloat.nan.isFinite = false ∧ PFloat.inf.isFinite = false :=
  ⟨by
    simp [plotThroughputComparison, runSummary, groupMeans, latestRun, maxTs,
      uniqueFirst, listMean, pdiv],
   rfl, rfl⟩

/-- C3: an empty dataset loads successfully (the file existed with zero data
rows), and the throughput summarization then signals an error — the
positional `summary.iloc[0]` baseline access raises `IndexError` — rather
than silently producing an empty summary with an undefined baseline. -/
theorem empty_dataset_loads_but_summary_errors :
    load_results (some ([] : List BenchmarkRecord)) = .ok [] ∧
    plotThroughputComparison [] =
      .error "IndexError: single positional indexer is out-of-bounds" :=
  ⟨rfl, by
    simp [plotThroughputComparison, runSummary, groupMeans, latestRun, maxTs,
      uniqueFirst]⟩

/-- C4: records whose timestamp is not the dataset-wide maximum never
influence the throughput summary — removing such a record (anywhere in the
dataset) leaves the whole outcome of `plot_throughput_comparison`, means
and speedups alike, unchanged, and the outcome coincides with the one
computed from the latest-run subset alone. -/
theorem nonmax_timestamp_no_influence (d₁ d₂ : List BenchmarkRecord)
    (r : BenchmarkRecord) (h : maxTs (d₁ ++ r :: d₂) ≠ some r.timestamp) :
    plotThroughputComparison (d₁ ++ r :: d₂) = plotThroughputComparison (d₁ ++ d₂) ∧
    plotThroughputComparison (d₁ ++ r :: d₂) =
      plotThroughputComparison (latestRun (d₁ ++ r :: d₂)) := by
  have hl := latestRun_insert_of_ne d₁ d₂ r h
  constructor
  · rw [plotThroughputComparison, plotThroughputComparison, runSummary, runSummary, hl]
  · rw [plotTC_latestRun]

/-- C4 witness: dropping the stale row `(t=3, B, 99)` from a dataset whose
maximum timestamp is 5 leaves the summary outcome unchanged. -/
theorem nonmax_timestamp_no_influence_witness :
    plotThroughputComparison
        ([⟨5, "A", 1, 10⟩] ++ ⟨3, "B", 1, 99⟩ :: [⟨5, "B", 1, 20⟩]) =
      plotThroughputComparison ([⟨5, "A", 1, 10⟩] ++ [⟨5, "B", 1, 20⟩]) ∧
    plotThroughputComparison
        ([⟨5, "A", 1, 10⟩] ++ ⟨3, "B", 1, 99⟩ :: [⟨5, "B", 1, 20⟩]) =
      plotThroughputComparison
        (latestRun ([⟨5, "A", 1, 10⟩] ++ ⟨3, "B", 1, 99⟩ :: [⟨5, "B", 1, 20⟩])) :=
  nonmax_timestamp_no_influence [⟨5, "A", 1, 10⟩] [⟨5, "B", 1, 20⟩] ⟨3, "B", 1, 99⟩
    (by decide)

lemma plotTS_rendered_parts (d : List BenchmarkRecord) (c : List (ℕ × ℚ))
    (ido : Option (List (ℕ × ℚ))) (h : plotThreadingScaling d = .rendered c ido) :
    c = groupMeans (fun r => r.threads)
      (d.filter (fun r => r.algorithm = "BlitzHash-MT")) ∧
    2 ≤ c.length ∧ ido = idealOf c := by
  simp only [plotThreadingScaling] at h
  split_ifs at h with h1 h2
  simp only [ScalingOutcome.rendered.injEq] at h
  obtain ⟨hc, hido⟩ := h
  subst hc
  subst hido
  exact ⟨rfl, Nat.not_lt.mp h2, rfl⟩

/-- C5: whenever the scaling chart is rendered, the ideal curve satisfies
`ideal(t) = m0 * t` at every measured thread count `t`, where `m0` is the
mean throughput of the lowest thread count (the head of the ascending
`by_threads` series). -/
theorem ideal_curve_is_linear_extrapolation (d : List BenchmarkRecord)
    (c : List (ℕ × ℚ)) (ido : Option (List (ℕ × ℚ))) (t0 : ℕ) (m0 : ℚ)
    (h : plotThreadingScaling d = .rendered c ido)
    (h0 : c.head? = some (t0, m0)) :
    ido = some (c.map (fun p => (p.1, m0 * (p.1 : ℚ)))) := by
  obtain ⟨-, hlen, hido⟩ := plotTS_rendered_parts d c ido h
  cases c with
  | nil => simp at h0
  | cons p tl =>
    simp only [List.head?_cons, Option.some.injEq] at h0
    subst h0
    rw [hido, idealOf, dif_pos (show 0 < ((t0, m0) :: tl).length by simp)]
    rfl

/-- C5 witness: the spec's own example — measured `{1:100, 2:180, 4:300}`
yields the ideal curve `{1:100, 2:200, 4:400}`. -/
theorem ideal_curve_is_linear_extrapolation_witness :
    (some [((1:ℕ), (100:ℚ)), (2, 200), (4, 400)] : Option (List (ℕ × ℚ))) =
      some (([((1:ℕ), (100:ℚ)), (2, 180), (4, 300)]).map
        (fun p => (p.1, (100:ℚ) * (p.1 : ℚ)))) :=
  ideal_curve_is_linear_extrapolation
    [⟨0, "BlitzHash-MT", 1, 100⟩, ⟨0, "BlitzHash-MT", 2, 180⟩,
      ⟨0, "BlitzHash-MT", 4, 300⟩]
    [(1, 100), (2, 180), (4, 300)] (some [(1, 100), (2, 200), (4, 400)]) 1 100
    (by
      simp [plotThreadingScaling, groupMeans, uniqueFirst, listMean, idealOf]
      norm_num)
    rfl

/-- C6: a dataset with zero records for the parallel-variant label
(`'BlitzHash-MT'`) makes `plot_threading_scaling` return early with a
skip notice — no error, and no scaling image is written. -/
theorem no_parallel_data_skips (d : List BenchmarkRecord)
    (h : d.filter (fun r => r.algorithm = "BlitzHash-MT") = []) :
    plotThreadingScaling d =
      .skipped "No parallel benchmark data found, skipping threading chart" := by
  simp [plotThreadingScaling, h]

/-- C6 witness: a dataset holding only a SHA-256 row is skipped. -/
theorem no_parallel_data_skips_witness :
    ([⟨0, "SHA-256", 1, 50⟩] : List BenchmarkRecord).filter
      (fun r => r.algorithm = "BlitzHash-MT") = [] ∧
    plotThreadingScaling [⟨0, "SHA-256", 1, 50⟩] =
      .skipped "No parallel benchmark data found, skipping threading chart" :=
  ⟨by decide, no_parallel_data_skips [⟨0, "SHA-256", 1, 50⟩] (by decide)⟩

/-- C10: whenever `plot_threading_scaling` reaches the rendering stage, the
`len(by_threads) > 0` guard is true (the fewer-than-two-thread-counts early
return has already fired otherwise), so the guarded `by_threads.iloc[0]`
never fails and the ideal curve is always present. -/
theorem ideal_guard_always_taken (d : List BenchmarkRecord) (c : List (ℕ × ℚ))
    (ido : Option (List (ℕ × ℚ))) (h : plotThreadingScaling d = .rendered c ido) :
    0 < c.length ∧ ido.isSome = true := by
  obtain ⟨-, hlen, hido⟩ := plotTS_rendered_parts d c ido h
  refine ⟨by omega, ?_⟩
  rw [hido, idealOf, dif_pos (by omega)]
  rfl

/-- C10 witness: a two-thread-count dataset renders with the ideal curve
present. -/
theorem ideal_guard_always_taken_witness :
    0 < ([((1:ℕ), (100:ℚ)), (2, 150)]).length ∧
    (some [((1:ℕ), (100:ℚ)), (2, 200)] : Option (List (ℕ × ℚ))).isSome = true :=
  ideal_guard_always_taken
    [⟨0, "BlitzHash-MT", 1, 100⟩, ⟨0, "BlitzHash-MT", 2, 150⟩]
    [(1, 100), (2, 150)] (some [(1, 100), (2, 200)])
    (by
      simp [plotThreadingScaling, groupMeans, uniqueFirst, listMean, idealOf]
      norm_num)

lemma filter_map_update_ts (d : List BenchmarkRecord) (f : BenchmarkRecord → ℚ)
    (p : BenchmarkRecord → Bool)
    (hp : ∀ r, p { r with timestamp := f r } = p r) :
    (d.map (fun r => { r with timestamp := f r })).filter p =
    (d.filter p).map (fun r => { r with timestamp := f r }) := by
  induction d with
  | nil => rfl
  | cons r tl ih =>
    simp only [List.map_cons, List.filter_cons, hp r]
    cases hc : p r <;> simp [ih]

lemma groupMeans_threads_map_ts (l : List BenchmarkRecord) (f : BenchmarkRecord → ℚ) :
    groupMeans (fun r => r.threads) (l.map (fun r => { r with timestamp := f r })) =
    groupMeans (fun r => r.threads) l := by
  rw [groupMeans, groupMeans, List.map_map]
  have h1 : l.map ((fun r : BenchmarkRecord => r.threads) ∘
      (fun r => { r with timestamp := f r })) = l.map (fun r => r.threads) := rfl
  rw [h1]
  refine List.map_congr_left ?_
  intro key _
  have h2 : (l.map (fun r => { r with timestamp := f r })).filter
      (fun r => r.threads = key) =
      (l.filter (fun r => r.threads = key)).map (fun r => { r with timestamp := f r }) :=
    filter_map_update_ts l f (fun r => decide (r.threads = key)) (fun r => rfl)
  rw [h2, List.map_map]
  rfl

/-- C7: the scaling curve is computed over all records of the
parallel-variant label across the entire dataset, not restricted to the
latest run — the outcome of `plot_threading_scaling` is invariant under
arbitrarily rewriting every record's timestamp, so a record's timestamp
(maximal or not) never affects whether and how it contributes. -/
theorem scaling_ignores_timestamps (d : List BenchmarkRecord)
    (f : BenchmarkRecord → ℚ) :
    plotThreadingScaling (d.map (fun r => { r with timestamp := f r })) =
    plotThreadingScaling d := by
  simp only [plotThreadingScaling]
  rw [filter_map_update_ts d f (fun r => decide (r.algorithm = "BlitzHash-MT"))
    (fun r => rfl)]
  rw [groupMeans_threads_map_ts]
  by_cases he : d.filter (fun r => r.algorithm = "BlitzHash-MT") = []
  · simp [he]
  · rw [if_neg (by simpa using he), if_neg he]

/-- C8: a dataset with fewer than two distinct timestamps (in particular a
single run) makes `plot_history` return early with a skip notice — no
history image is written. -/
theorem single_run_history_skips (d : List BenchmarkRecord)
    (h : (uniqueFirst (d.map (fun r => r.timestamp))).length < 2) :
    plotHistory d = .skipped "Need multiple benchmark runs for history chart" := by
  rw [plotHistory, if_pos h]

/-- C8 witness: two rows sharing one timestamp give exactly one distinct
timestamp, and the history chart is skipped. -/
theorem single_run_history_skips_witness :
    (uniqueFirst (([⟨1, "A", 1, 2⟩, ⟨1, "B", 1, 3⟩] : List BenchmarkRecord).map
      (fun r => r.timestamp))).length < 2 ∧
    plotHistory [⟨1, "A", 1, 2⟩, ⟨1, "B", 1, 3⟩] =
      .skipped "Need multiple benchmark runs for history chart" :=
  ⟨by decide, single_run_history_skips [⟨1, "A", 1, 2⟩, ⟨1, "B", 1, 3⟩] (by decide)⟩

/-- C9: when the history chart is rendered, each algorithm's point list is
its records' `(timestamp, mb_s)` pairs sorted by timestamp ascending with
no aggregation: the points are a permutation of one point per record of
that algorithm (duplicate algorithm/timestamp rows stay separate points
with their original `mb_s` values). -/
theorem history_no_aggregation (d : List BenchmarkRecord)
    (S : List (String × List (ℚ × ℚ))) (hS : plotHistory d = .rendered S)
    (a : String) (pts : List (ℚ × ℚ)) (hmem : (a, pts) ∈ S) :
    List.Sorted (fun p q : ℚ × ℚ => p.1 ≤ q.1) pts ∧
    pts.Perm ((d.filter (fun r => r.algorithm = a)).map
      (fun r => (r.timestamp, r.mb_s))) := by
  rw [plotHistory] at hS
  split_ifs at hS with hlt
  simp only [HistoryOutcome.rendered.injEq] at hS
  rw [← hS] at hmem
  obtain ⟨a', ha', heq⟩ := List.mem_map.mp hmem
  simp only [Prod.mk.injEq] at heq
  obtain ⟨haa, hpts⟩ := heq
  subst haa
  rw [← hpts]
  constructor
  · exact List.Pairwise.map _ (fun a b hab => hab)
      (List.sorted_insertionSort _ _)
  · exact (List.perm_insertionSort _ _).map _

/-- C9 witness: two rows sharing algorithm `A` and timestamp 100 appear as
two separate points `(100, 10)` and `(100, 20)` — not one averaged point. -/
theorem history_no_aggregation_witness :
    List.Sorted (fun p q : ℚ × ℚ => p.1 ≤ q.1)
      [((100:ℚ), (10:ℚ)), (100, 20), (200, 30)] ∧
    List.Perm [((100:ℚ), (10:ℚ)), (100, 20), (200, 30)]
      ((([⟨100, "A", 1, 10⟩, ⟨100, "A", 1, 20⟩, ⟨200, "A", 1, 30⟩] :
        List BenchmarkRecord).filter (fun r => r.algorithm = "A")).map
        (fun r => (r.timestamp, r.mb_s))) :=
  history_no_aggregation
    [⟨100, "A", 1, 10⟩, ⟨100, "A", 1, 20⟩, ⟨200, "A", 1, 30⟩]
    [("A", [(100, 10), (100, 20), (200, 30)])]
    (by decide)
    "A" [(100, 10), (100, 20), (200, 30)] (by decide)
